import Mathlib

/-!
# libdns/netlify: request dispatch, zone cache and record finder

A shallow embedding of `client.go`.  Go `error` values are kept as their
message, state (`p.zones`, the requests sent over the wire) is passed
explicitly, and the functions of other packages that the client calls
(`encoding/json`, `net/url`, `net/http`, `libdns`) are parameters gathered in
`Lib`.  The remote API is a function from the requests sent so far and the
current request to the outcome of the round trip.
-/

namespace Netlify

/-- A Go `error`, kept as its message.  In `Option GoError`, `none` is `nil`. -/
abbrev GoError := String

/-- Modelled from the spec: the struct `netlifyZone` is declared outside `client.go`;
the spec gives a Zone the fields `id` and `name`, which are the two `client.go` reads. -/
structure netlifyZone where
  ID : String
  Name : String
  deriving DecidableEq, Repr

/-- Modelled from the spec: the struct `netlifyDNSRecord` is declared outside `client.go`;
the spec gives a RemoteRecord `id, zoneId, hostname, type, value, ttl`.  The field that
Go calls `Type` is `Type_` here. -/
structure netlifyDNSRecord where
  ID : String
  DNSZoneID : String
  Hostname : String
  Type_ : String
  Value : String
  TTL : Int
  deriving DecidableEq, Repr

/-- The zero value of `netlifyDNSRecord`. -/
def netlifyDNSRecord.zero : netlifyDNSRecord := ⟨"", "", "", "", "", 0⟩

/-- Modelled from the spec: the struct `netlifyDNSDeleteError` is declared outside
`client.go`; it is the error envelope of the delete endpoint, which carries a message. -/
structure netlifyDNSDeleteError where
  Message : String
  deriving DecidableEq, Repr

/-- The zero value of `netlifyDNSDeleteError`, what `var err netlifyDNSDeleteError` holds. -/
def netlifyDNSDeleteError.zero : netlifyDNSDeleteError := ⟨""⟩

/-- Modelled from the spec: `libdns.Record` as the caller-facing Record with
`name, type, value, ttl`; the field that Go calls `Type` is `Type_` here. -/
structure Record where
  Type_ : String
  Name : String
  Value : String
  TTL : Int
  deriving DecidableEq, Repr

/-- An `http.Request` as far as the client sets it: method, URL, body (`none` is a
`nil` body) and the header as the list of its key/value pairs. -/
structure Request where
  Method : String
  URL : String
  Body : Option String
  Header : List (String × String)
  deriving DecidableEq, Repr

/-- An `http.Response` as far as the client reads it: the status code, and what
`ioutil.ReadAll(resp.Body)` returns (the bytes read and the read error). -/
structure Response where
  StatusCode : Int
  Body : String
  ReadErr : Option GoError
  deriving DecidableEq, Repr

/-- The requests sent so far, oldest first. -/
abbrev World := List Request

/-- The remote side of `http.DefaultClient.Do`: given the requests already sent and the
request being sent, a transport error or a response. -/
abbrev Remote := World → Request → Except GoError Response

/-- The functions of other packages used by `client.go`. -/
structure Lib where
  /-- The function `libdns.AbsoluteName(name, zone)`. -/
  AbsoluteName : String → String → String
  /-- The function `url.QueryEscape`, which `url.Values.Encode` applies to keys and values. -/
  QueryEscape : String → String
  /-- The error of `http.NewRequestWithContext` for a raw URL (the method is a constant of
  `net/http` and the context is not nil, so only the URL can be refused). -/
  urlParseError : String → Option GoError
  /-- The call `json.Marshal` on a `netlifyDNSRecord`. -/
  marshalRecord : netlifyDNSRecord → Except GoError String
  /-- The call `json.Marshal(netlifyRecord(record))`; `netlifyRecord` is declared outside
  `client.go`. -/
  marshalNetlifyRecord : Record → Except GoError String
  /-- The call `json.Unmarshal(body, &v)` for `v` a `[]netlifyZone`: the new `v`, and the error. -/
  unmarshalZones : String → List netlifyZone → List netlifyZone × Option GoError
  /-- The call `json.Unmarshal(body, &v)` for `v` a `[]netlifyDNSRecord`. -/
  unmarshalRecords : String → List netlifyDNSRecord → List netlifyDNSRecord × Option GoError
  /-- The call `json.Unmarshal(body, &v)` for `v` a `netlifyDNSRecord`. -/
  unmarshalRecord : String → netlifyDNSRecord → netlifyDNSRecord × Option GoError

/-- The provider: its token and the zone cache `zones map[string]netlifyZone`, `none`
while the map is `nil`.  The mutex `zonesMu` makes `getZoneInfo` atomic and is not kept. -/
structure Provider where
  PersonalAccessToken : String
  zones : Option (String → Option netlifyZone)

/-- The read `zone, ok := p.zones[zoneName]`; a `nil` map has no entry. -/
def Provider.lookup (p : Provider) (zoneName : String) : Option netlifyZone :=
  match p.zones with
  | none => none
  | some m => m zoneName

/-- The write `m[key] = value` on a Go map. -/
def mapStore (m : String → Option netlifyZone) (key : String) (value : netlifyZone) :
    String → Option netlifyZone :=
  fun k => if k = key then some value else m k

/-- The constant `baseURL`. -/
def baseURL : String := "https://api.netlify.com/api/v1"

/-- The call `strings.TrimRight(s, cutset)`: `s` without its trailing characters that
occur in `cutset`. -/
def TrimRight (s cutset : String) : String :=
  ⟨s.data.rdropWhile (fun c => cutset.data.contains c)⟩

/-- The call `h.Set(key, value)` on an `http.Header` or a `url.Values` that holds one
value per key: the entry of `key` is replaced. -/
def setEntry (h : List (String × String)) (key value : String) : List (String × String) :=
  h.filter (fun e => e.1 != key) ++ [(key, value)]

/-- The call `req.Header.Set(key, value)`. -/
def Request.setHeader (req : Request) (key value : String) : Request :=
  { req with Header := setEntry req.Header key value }

/-- The call `qs.Encode()` on a `url.Values` with one value per key: `key=value` pairs,
both escaped, sorted by key and joined by `&`. -/
def Encode (lib : Lib) (qs : List (String × String)) : String :=
  "&".intercalate
    ((qs.insertionSort (fun a b => a.1 < b.1 ∨ a.1 = b.1)).map
      (fun e => lib.QueryEscape e.1 ++ "=" ++ lib.QueryEscape e.2))

/-- The call `http.NewRequestWithContext(ctx, method, url, body)`. -/
def NewRequestWithContext (lib : Lib) (method url : String) (body : Option String) :
    Except GoError Request :=
  match lib.urlParseError url with
  | some e => .error e
  | none => .ok { Method := method, URL := url, Body := body, Header := [] }

/-- The call `fmt.Errorf(format)` without operands, for a format that has no `%`: the
message is the format. -/
def errorfPlain (format : String) : GoError := format

/-- The Go function `doAPIRequest`.  `unmarshal` is `json.Unmarshal(body, &result)` at the
dynamic type of `result`.  Returns the error, `result` as left behind, and the world. -/
def doAPIRequest {α : Type} (remote : Remote) (p : Provider)
    (unmarshal : String → α → α × Option GoError) (req : Request)
    (isZone isDel isGet isSolo : Bool) (result : α) (w : World) :
    Option GoError × α × World :=
  let req := req.setHeader "Authorization" ("Bearer " ++ p.PersonalAccessToken)
  match remote w req with
  | .error e => (some e, result, w ++ [req])
  | .ok resp =>
    let body := resp.Body
    let err := resp.ReadErr
    if resp.StatusCode ≥ 400 then
      (some ("got error status: HTTP " ++ toString resp.StatusCode ++ ": " ++ body),
        result, w ++ [req])
    -- delete DNS record
    else if isDel && !isZone then
      if body.length > 0 then
        let err : netlifyDNSDeleteError := netlifyDNSDeleteError.zero
        let result := (unmarshal body result).1
        (some (errorfPlain err.Message), result, w ++ [req])
      else (err, result, w ++ [req])
    -- get zone info
    else if isZone && isGet then
      let decoded := unmarshal body result
      (decoded.2, decoded.1, w ++ [req])
    -- get DNS records
    else if !isZone && isGet && !isSolo then
      let decoded := unmarshal body result
      (decoded.2, decoded.1, w ++ [req])
    -- get DNS record
    else if !isZone && isGet && isSolo then
      let decoded := unmarshal body result
      (decoded.2, decoded.1, w ++ [req])
    -- update DNS record
    else if !isZone && isSolo && !isGet then
      let decoded := unmarshal body result
      match decoded.2 with
      | some _ => (none, decoded.1, w ++ [req])
      | none => (decoded.2, decoded.1, w ++ [req])
    else (err, result, w ++ [req])

/-- The Go function `createRecord`. -/
def createRecord (lib : Lib) (remote : Remote) (p : Provider) (zoneInfo : netlifyZone)
    (record : Record) (w : World) : Except GoError netlifyDNSRecord × World :=
  match lib.marshalNetlifyRecord record with
  | .error e => (.error e, w)
  | .ok jsonBytes =>
    let reqURL := baseURL ++ "/dns_zones/" ++ zoneInfo.ID ++ "/dns_records"
    match NewRequestWithContext lib "POST" reqURL (some jsonBytes) with
    | .error e => (.error e, w)
    | .ok req =>
      let req := req.setHeader "Content-Type" "application/json"
      match doAPIRequest remote p lib.unmarshalRecord req false false false true
          netlifyDNSRecord.zero w with
      | (some e, _, w1) => (.error e, w1)
      | (none, result, w1) => (.ok result, w1)

/-- The Go function `updateRecord`. -/
def updateRecord (lib : Lib) (remote : Remote) (p : Provider)
    (oldRec newRec : netlifyDNSRecord) (w : World) : Except GoError netlifyDNSRecord × World :=
  let zoneID := oldRec.DNSZoneID
  let reqURL := baseURL ++ "/dns_zones/" ++ zoneID ++ "/dns_records/" ++ oldRec.ID
  match lib.marshalRecord newRec with
  | .error e => (.error e, w)
  | .ok jsonBytes =>
    match NewRequestWithContext lib "DELETE" reqURL (some jsonBytes) with
    | .error e => (.error e, w)
    | .ok req =>
      let req := req.setHeader "Content-Type" "application/json"
      match doAPIRequest remote p lib.unmarshalRecord req false false false true
          netlifyDNSRecord.zero w with
      | (some e, _, w1) => (.error e, w1)
      | (none, _, w1) =>
        match lib.marshalRecord newRec with
        | .error e => (.error e, w1)
        | .ok jsonEditBytes =>
          let reqEditURL := baseURL ++ "/dns_zones/" ++ zoneID ++ "/dns_records"
          match NewRequestWithContext lib "POST" reqEditURL (some jsonEditBytes) with
          | .error e => (.error e, w1)
          | .ok reqEdit =>
            let reqEdit := reqEdit.setHeader "Content-Type" "application/json"
            match doAPIRequest remote p lib.unmarshalRecord reqEdit false false false true
                netlifyDNSRecord.zero w1 with
            | (some e, _, w2) => (.error e, w2)
            | (none, resultEdit, w2) => (.ok resultEdit, w2)

/-- The query values that `getDNSRecords` builds in `qs`. -/
def getDNSRecordsQuery (lib : Lib) (zoneInfo : netlifyZone) (rec : Record)
    (matchContent : Bool) : List (String × String) :=
  let qs : List (String × String) := []
  let qs := setEntry qs "type" rec.Type_
  let qs := setEntry qs "name" (lib.AbsoluteName rec.Name zoneInfo.Name)
  if matchContent then setEntry qs "content" rec.Value else qs

/-- The Go function `getDNSRecords`.  The values `qs` are built and not used again: the
request URL is formatted from `baseURL` and `zoneInfo.ID` alone. -/
def getDNSRecords (lib : Lib) (remote : Remote) (p : Provider) (zoneInfo : netlifyZone)
    (rec : Record) (matchContent : Bool) (w : World) :
    Except GoError (List netlifyDNSRecord) × World :=
  let _qs := getDNSRecordsQuery lib zoneInfo rec matchContent
  let reqURL := baseURL ++ "/dns_zones/" ++ zoneInfo.ID ++ "/dns_records"
  match NewRequestWithContext lib "GET" reqURL none with
  | .error e => (.error e, w)
  | .ok req =>
    match doAPIRequest remote p lib.unmarshalRecords req false false true false [] w with
    | (err, results, w1) =>
      let rest_to_return := results.foldl
        (fun acc res =>
          if res.Hostname = lib.AbsoluteName rec.Name zoneInfo.Name ∧ res.Type_ = rec.Type_
          then acc ++ [res] else acc) []
      match err with
      | some e => (.error e, w1)
      | none => (.ok rest_to_return, w1)

/-- The Go function `getZoneInfo`.  Returns the result, the provider with its cache as
left behind, and the world. -/
def getZoneInfo (lib : Lib) (remote : Remote) (p : Provider) (zoneName : String)
    (w : World) : Except GoError netlifyZone × Provider × World :=
  let zoneName := TrimRight zoneName "."
  -- if we already got the zone info, reuse it
  let m : String → Option netlifyZone :=
    match p.zones with
    | none => fun _ => none
    | some m => m
  let p := { p with zones := some m }
  match m zoneName with
  | some zone => (.ok zone, p, w)
  | none =>
    let qs := setEntry [] "name" zoneName
    let reqURL := baseURL ++ "/dns_zones?" ++ Encode lib qs
    match NewRequestWithContext lib "GET" reqURL none with
    | .error e => (.error e, p, w)
    | .ok req =>
      match doAPIRequest remote p lib.unmarshalZones req true false true false [] w with
      | (some e, _, w1) => (.error e, p, w1)
      | (none, zones, w1) =>
        if h : zones.length ≠ 1 then
          (.error ("expected 1 zone, got " ++ toString zones.length ++ " for " ++ zoneName),
            p, w1)
        else
          -- cache this zone for possible reuse
          let zone := zones.get ⟨0, by omega⟩
          (.ok zone, { p with zones := some (mapStore m zoneName zone) }, w1)

/-- A run of `getZoneInfo` calls on one provider, each against its own remote; the
results are dropped, the provider and the world are threaded through. -/
def getZoneInfoCalls (lib : Lib) :
    List (Remote × String) → Provider → World → Provider × World
  | [], p, w => (p, w)
  | (remote, zoneName) :: rest, p, w =>
    let out := getZoneInfo lib remote p zoneName w
    getZoneInfoCalls lib rest out.2.1 out.2.2

/-- A remote that answers every request with the same response. -/
def constRemote (resp : Response) : Remote := fun _ _ => .ok resp

/-- The body of a zone lookup that finds the one zone `example.com`. -/
def oneZoneBody : String := "[\x7b\"id\":\"z1\",\"name\":\"example.com\"\x7d]"

/-- The body of a records listing with three TXT records of zone `z1`: two of
`a.example.com` around one of `b.example.com`. -/
def threeRecordsBody : String :=
  "[\x7b\"id\":\"r1\",\"dns_zone_id\":\"z1\",\"hostname\":\"a.example.com\",\"type\":\"TXT\",\"value\":\"one\",\"ttl\":60\x7d," ++
  "\x7b\"id\":\"r2\",\"dns_zone_id\":\"z1\",\"hostname\":\"b.example.com\",\"type\":\"TXT\",\"value\":\"two\",\"ttl\":60\x7d," ++
  "\x7b\"id\":\"r3\",\"dns_zone_id\":\"z1\",\"hostname\":\"a.example.com\",\"type\":\"TXT\",\"value\":\"three\",\"ttl\":60\x7d]"

/-- The body of a create response: the record `r9` of `a.example.com`. -/
def oneRecordBody : String :=
  "\x7b\"id\":\"r9\",\"dns_zone_id\":\"z1\",\"hostname\":\"a.example.com\",\"type\":\"TXT\",\"value\":\"new\",\"ttl\":60\x7d"

/-- Stand-ins for the library functions, exact on the inputs the examples below use:
`AbsoluteName` joins a relative name without trailing dot to a non-empty zone, no
character is escaped, every URL parses, marshalling gives a fixed body, and the decoders
decode the zone list `oneZoneBody`, the record list `threeRecordsBody`, the record object
`oneRecordBody` and the empty list, and refuse every other body leaving the target as it
was. -/
def stubLib : Lib where
  AbsoluteName name zone := if name = "" ∨ name = "@" then zone else name ++ "." ++ zone
  QueryEscape s := s
  urlParseError _ := none
  marshalRecord _ := .ok "\x7b\"type\":\"TXT\"\x7d"
  marshalNetlifyRecord _ := .ok "\x7b\"type\":\"TXT\"\x7d"
  unmarshalZones body v :=
    if body = oneZoneBody then
      ([⟨"z1", "example.com"⟩], none)
    else if body = "[]" then ([], none)
    else (v, some "json: cannot unmarshal")
  unmarshalRecords body v :=
    if body = threeRecordsBody then
      ([⟨"r1", "z1", "a.example.com", "TXT", "one", 60⟩,
        ⟨"r2", "z1", "b.example.com", "TXT", "two", 60⟩,
        ⟨"r3", "z1", "a.example.com", "TXT", "three", 60⟩], none)
    else if body = "[]" then ([], none)
    else (v, some "json: cannot unmarshal")
  unmarshalRecord body v :=
    if body = oneRecordBody then
      (⟨"r9", "z1", "a.example.com", "TXT", "new", 60⟩, none)
    else (v, some "json: cannot unmarshal")

/-! ## Requests and fixtures used in the statements -/

/-- The request as `doAPIRequest` sends it: with the bearer token of the provider. -/
def authorized (p : Provider) (req : Request) : Request :=
  req.setHeader "Authorization" ("Bearer " ++ p.PersonalAccessToken)

/-- The request that `createRecord` hands to `doAPIRequest`. -/
def createRequest (zoneID jsonBytes : String) : Request :=
  ⟨"POST", baseURL ++ "/dns_zones/" ++ zoneID ++ "/dns_records", some jsonBytes,
    [("Content-Type", "application/json")]⟩

/-- The first request that `updateRecord` hands to `doAPIRequest`. -/
def deleteRequest (zoneID recordID jsonBytes : String) : Request :=
  ⟨"DELETE", baseURL ++ "/dns_zones/" ++ zoneID ++ "/dns_records/" ++ recordID,
    some jsonBytes, [("Content-Type", "application/json")]⟩

/-- A remote that answers a DELETE with `204` and an empty body, and any other request
with `201` and a record object. -/
def updateRemote : Remote := fun _ req =>
  if req.Method = "DELETE" then .ok ⟨204, "", none⟩
  else .ok ⟨201, oneRecordBody, none⟩

/-- The request that `getDNSRecords` hands to `doAPIRequest`. -/
def recordsRequest (zoneID : String) : Request :=
  ⟨"GET", baseURL ++ "/dns_zones/" ++ zoneID ++ "/dns_records", none, []⟩

/-- The string of `k` dots. -/
def dots (k : Nat) : String := ⟨List.replicate k '.'⟩

/-- The request that `getZoneInfo` hands to `doAPIRequest` for the normalised name. -/
def zonesRequest (lib : Lib) (name : String) : Request :=
  ⟨"GET", baseURL ++ "/dns_zones?" ++ (lib.QueryEscape "name" ++ "=" ++ lib.QueryEscape name),
    none, []⟩

/-- The provider and the world after one call of `getZoneInfo` followed by a run of
further calls. -/
def getZoneInfoThen (lib : Lib) (remote : Remote) (p : Provider) (zoneName : String)
    (w : World) (calls : List (Remote × String)) : Provider × World :=
  getZoneInfoCalls lib calls (getZoneInfo lib remote p zoneName w).2.1
    (getZoneInfo lib remote p zoneName w).2.2

/-! ## Request dispatch -/

theorem doAPIRequest_world {α : Type} (remote : Remote) (p : Provider)
    (unmarshal : String → α → α × Option GoError) (req : Request)
    (isZone isDel isGet isSolo : Bool) (result : α) (w : World) :
    (doAPIRequest remote p unmarshal req isZone isDel isGet isSolo result w).2.2 =
      w ++ [authorized p req] := by
  simp only [doAPIRequest, authorized]
  repeat' split
  all_goals rfl

theorem doAPIRequest_transport_error {α : Type} (remote : Remote) (p : Provider)
    (unmarshal : String → α → α × Option GoError) (req : Request)
    (isZone isDel isGet isSolo : Bool) (result : α) (w : World) (e : GoError)
    (hresp : remote w (authorized p req) = .error e) :
    doAPIRequest remote p unmarshal req isZone isDel isGet isSolo result w =
      (some e, result, w ++ [authorized p req]) := by
  unfold authorized at hresp
  simp only [doAPIRequest, hresp, authorized]

theorem doAPIRequest_status_error {α : Type} (remote : Remote) (p : Provider)
    (unmarshal : String → α → α × Option GoError) (req : Request)
    (isZone isDel isGet isSolo : Bool) (result : α) (w : World) (resp : Response)
    (hresp : remote w (authorized p req) = .ok resp) (hstatus : 400 ≤ resp.StatusCode) :
    doAPIRequest remote p unmarshal req isZone isDel isGet isSolo result w =
      (some ("got error status: HTTP " ++ toString resp.StatusCode ++ ": " ++ resp.Body),
        result, w ++ [authorized p req]) := by
  unfold authorized at hresp
  simp only [doAPIRequest, hresp, authorized, ge_iff_le, hstatus, if_true]

/-- The decoding branch shared by the zone list and the record list shapes. -/
theorem doAPIRequest_list_shape {α : Type} (remote : Remote) (p : Provider)
    (unmarshal : String → α → α × Option GoError) (req : Request)
    (isZone : Bool) (result : α) (w : World) (resp : Response)
    (hresp : remote w (authorized p req) = .ok resp) (hstatus : resp.StatusCode < 400) :
    doAPIRequest remote p unmarshal req isZone false true false result w =
      ((unmarshal resp.Body result).2, (unmarshal resp.Body result).1,
        w ++ [authorized p req]) := by
  unfold authorized at hresp
  have hs : ¬ (400 ≤ resp.StatusCode) := not_le.mpr hstatus
  cases isZone <;> simp [doAPIRequest, hresp, authorized, hs]

/-- The branch of the single record shape: the decoding error is dropped. -/
theorem doAPIRequest_solo_shape {α : Type} (remote : Remote) (p : Provider)
    (unmarshal : String → α → α × Option GoError) (req : Request)
    (result : α) (w : World) (resp : Response)
    (hresp : remote w (authorized p req) = .ok resp) (hstatus : resp.StatusCode < 400) :
    doAPIRequest remote p unmarshal req false false false true result w =
      (none, (unmarshal resp.Body result).1, w ++ [authorized p req]) := by
  unfold authorized at hresp
  have hs : ¬ (400 ≤ resp.StatusCode) := not_le.mpr hstatus
  simp only [doAPIRequest, hresp, authorized, ge_iff_le, hs, if_false, Bool.and_self,
    Bool.not_false, Bool.and_true, Bool.false_eq_true, Bool.not_true, Bool.and_false, if_true]
  cases h : (unmarshal resp.Body result).2 <;> simp

theorem length_pos_of_ne_empty (s : String) (h : s ≠ "") : s.length > 0 := by
  cases s with
  | mk data =>
    cases data with
    | nil => exact absurd rfl h
    | cons c cs => simp [String.length]

/-- The delete shape: an empty body gives the read error, a non-empty body gives the
message of the zero `netlifyDNSDeleteError`, whatever the body holds. -/
theorem doAPIRequest_delete_shape {α : Type} (remote : Remote) (p : Provider)
    (unmarshal : String → α → α × Option GoError) (req : Request)
    (isGet isSolo : Bool) (result : α) (w : World) (resp : Response)
    (hresp : remote w (authorized p req) = .ok resp) (hstatus : resp.StatusCode < 400) :
    (doAPIRequest remote p unmarshal req false true isGet isSolo result w).1 =
      if resp.Body = "" then resp.ReadErr else some "" := by
  unfold authorized at hresp
  have hs : ¬ (400 ≤ resp.StatusCode) := not_le.mpr hstatus
  by_cases hb : resp.Body = ""
  · simp [doAPIRequest, hresp, hs, hb]
  · have hl := length_pos_of_ne_empty resp.Body hb
    simp [doAPIRequest, hresp, hs, hb, hl, errorfPlain, netlifyDNSDeleteError.zero]

/-- C4: for every combination of the four flags, a response whose status code is 400 or
more makes `doAPIRequest` return an error, whose message contains the status code in
decimal and the body as read. -/
theorem doAPIRequest_status_ge_400_fails {α : Type} (remote : Remote) (p : Provider)
    (unmarshal : String → α → α × Option GoError) (req : Request)
    (isZone isDel isGet isSolo : Bool) (result : α) (w : World) (resp : Response)
    (hresp : remote w (authorized p req) = .ok resp) (hstatus : 400 ≤ resp.StatusCode) :
    ∃ msg : GoError,
      (doAPIRequest remote p unmarshal req isZone isDel isGet isSolo result w).1 = some msg ∧
      (toString resp.StatusCode).data <:+: msg.data ∧ resp.Body.data <:+: msg.data := by
  refine ⟨"got error status: HTTP " ++ toString resp.StatusCode ++ ": " ++ resp.Body, ?_, ?_, ?_⟩
  · rw [doAPIRequest_status_error remote p unmarshal req isZone isDel isGet isSolo result w resp
      hresp hstatus]
  · refine ⟨"got error status: HTTP ".data, (": " ++ resp.Body).data, ?_⟩
    simp [String.data_append]
  · refine ⟨("got error status: HTTP " ++ toString resp.StatusCode ++ ": ").data, [], ?_⟩
    simp [String.data_append]

/-- C4, run on a 404 response to a request flagged as a zone lookup and a delete at once. -/
theorem doAPIRequest_status_ge_400_fails_witness :
    ∃ msg : GoError,
      (doAPIRequest (constRemote ⟨404, "Not Found", none⟩) ⟨"token", none⟩
        stubLib.unmarshalRecord ⟨"DELETE", "u", none, []⟩ true true false true
        netlifyDNSRecord.zero []).1 = some msg ∧
      (toString (404 : Int)).data <:+: msg.data ∧ "Not Found".data <:+: msg.data :=
  doAPIRequest_status_ge_400_fails (constRemote ⟨404, "Not Found", none⟩) ⟨"token", none⟩
    stubLib.unmarshalRecord ⟨"DELETE", "u", none, []⟩ true true false true
    netlifyDNSRecord.zero [] ⟨404, "Not Found", none⟩ rfl (by decide)

/-- C6: on a delete-shaped call answered with a status below 400, an empty body gives the
read error (no error when the body was read without one), and a non-empty body gives an
error whose message is empty: the message of the envelope is never read. -/
theorem doAPIRequest_delete_envelope_message_lost {α : Type} (remote : Remote) (p : Provider)
    (unmarshal : String → α → α × Option GoError) (req : Request)
    (isGet isSolo : Bool) (result : α) (w : World) (resp : Response)
    (hresp : remote w (authorized p req) = .ok resp) (hstatus : resp.StatusCode < 400) :
    (resp.Body = "" → resp.ReadErr = none →
      (doAPIRequest remote p unmarshal req false true isGet isSolo result w).1 = none) ∧
    (resp.Body ≠ "" →
      (doAPIRequest remote p unmarshal req false true isGet isSolo result w).1 = some "") := by
  rw [doAPIRequest_delete_shape remote p unmarshal req isGet isSolo result w resp hresp hstatus]
  constructor
  · intro hb hr
    simp [hb, hr]
  · intro hb
    simp [hb]

/-- C6, run on an envelope whose message is `record not found`, with status 200: the error
returned has the empty message, not `record not found`. -/
theorem doAPIRequest_delete_envelope_message_lost_witness :
    (doAPIRequest (constRemote ⟨200, "\x7b\"message\":\"record not found\"\x7d", none⟩)
      ⟨"token", none⟩ stubLib.unmarshalRecord ⟨"DELETE", "u", none, []⟩ false true false false
      netlifyDNSRecord.zero []).1 = some "" :=
  (doAPIRequest_delete_envelope_message_lost
    (constRemote ⟨200, "\x7b\"message\":\"record not found\"\x7d", none⟩)
    ⟨"token", none⟩ stubLib.unmarshalRecord ⟨"DELETE", "u", none, []⟩ false false
    netlifyDNSRecord.zero [] ⟨200, "\x7b\"message\":\"record not found\"\x7d", none⟩ rfl
    (by decide)).2 (by decide)

/-! ## Creating and updating records -/

theorem createRecord_eq (lib : Lib) (remote : Remote) (p : Provider) (zoneInfo : netlifyZone)
    (record : Record) (w : World) (jsonBytes : String)
    (hm : lib.marshalNetlifyRecord record = .ok jsonBytes)
    (hu : lib.urlParseError (createRequest zoneInfo.ID jsonBytes).URL = none) :
    createRecord lib remote p zoneInfo record w =
      match doAPIRequest remote p lib.unmarshalRecord (createRequest zoneInfo.ID jsonBytes)
          false false false true netlifyDNSRecord.zero w with
      | (some e, _, w1) => (.error e, w1)
      | (none, result, w1) => (.ok result, w1) := by
  simp only [createRequest] at hu
  simp only [createRecord, hm, NewRequestWithContext, hu, createRequest, Request.setHeader,
    setEntry, List.filter_nil, List.nil_append]

/-- C7: when the create response has a status below 400 and a body that does not decode
as a record (`json.Unmarshal` returns an error), `doAPIRequest` in the single record
shape returns no error, and `createRecord` returns a record, the target of the failed
decoding, with no error. -/
theorem createRecord_decode_error_not_reported (lib : Lib) (remote : Remote) (p : Provider)
    (zoneInfo : netlifyZone) (record : Record) (w : World) (jsonBytes : String)
    (resp : Response) (e : GoError)
    (hm : lib.marshalNetlifyRecord record = .ok jsonBytes)
    (hu : lib.urlParseError (createRequest zoneInfo.ID jsonBytes).URL = none)
    (hresp : remote w (authorized p (createRequest zoneInfo.ID jsonBytes)) = .ok resp)
    (hstatus : resp.StatusCode < 400)
    (_hdec : (lib.unmarshalRecord resp.Body netlifyDNSRecord.zero).2 = some e) :
    (doAPIRequest remote p lib.unmarshalRecord (createRequest zoneInfo.ID jsonBytes)
      false false false true netlifyDNSRecord.zero w).1 = none ∧
    (createRecord lib remote p zoneInfo record w).1 =
      .ok (lib.unmarshalRecord resp.Body netlifyDNSRecord.zero).1 := by
  rw [createRecord_eq lib remote p zoneInfo record w jsonBytes hm hu,
    doAPIRequest_solo_shape remote p lib.unmarshalRecord _ netlifyDNSRecord.zero w resp hresp
      hstatus]
  exact ⟨rfl, rfl⟩

/-- C7, run on a create call answered `200 <html>`: the body is refused by the decoder,
`doAPIRequest` reports nothing and `createRecord` returns the zero record. -/
theorem createRecord_decode_error_not_reported_witness :
    (doAPIRequest (constRemote ⟨200, "<html>", none⟩) ⟨"token", none⟩ stubLib.unmarshalRecord
      (createRequest "z1" "\x7b\"type\":\"TXT\"\x7d") false false false true
      netlifyDNSRecord.zero []).1 = none ∧
    (createRecord stubLib (constRemote ⟨200, "<html>", none⟩) ⟨"token", none⟩
      ⟨"z1", "example.com"⟩ ⟨"TXT", "a", "one", 0⟩ []).1 = .ok netlifyDNSRecord.zero :=
  createRecord_decode_error_not_reported stubLib (constRemote ⟨200, "<html>", none⟩)
    ⟨"token", none⟩ ⟨"z1", "example.com"⟩ ⟨"TXT", "a", "one", 0⟩ []
    "\x7b\"type\":\"TXT\"\x7d" ⟨200, "<html>", none⟩ "json: cannot unmarshal" rfl rfl rfl
    (by decide) rfl

theorem updateRecord_eq (lib : Lib) (remote : Remote) (p : Provider)
    (oldRec newRec : netlifyDNSRecord) (w : World) (jsonBytes : String)
    (hm : lib.marshalRecord newRec = .ok jsonBytes)
    (hu1 : lib.urlParseError (deleteRequest oldRec.DNSZoneID oldRec.ID jsonBytes).URL = none)
    (hu2 : lib.urlParseError (createRequest oldRec.DNSZoneID jsonBytes).URL = none) :
    updateRecord lib remote p oldRec newRec w =
      match doAPIRequest remote p lib.unmarshalRecord
          (deleteRequest oldRec.DNSZoneID oldRec.ID jsonBytes)
          false false false true netlifyDNSRecord.zero w with
      | (some e, _, w1) => (.error e, w1)
      | (none, _, w1) =>
        match doAPIRequest remote p lib.unmarshalRecord
            (createRequest oldRec.DNSZoneID jsonBytes)
            false false false true netlifyDNSRecord.zero w1 with
        | (some e, _, w2) => (.error e, w2)
        | (none, resultEdit, w2) => (.ok resultEdit, w2) := by
  simp only [createRequest] at hu2
  simp only [deleteRequest] at hu1
  simp only [updateRecord, hm, NewRequestWithContext, hu1, hu2, createRequest, deleteRequest,
    Request.setHeader, setEntry, List.filter_nil, List.nil_append]

/-- C5: `updateRecord` first sends one DELETE on the record of `oldRec`; when that call
returns an error it returns this error and has sent nothing else; when it returns none it
sends one POST on the records of the zone with `newRec` as body, and nothing else, and
returns what the POST call returns: its error, or the record decoded from its response. -/
theorem updateRecord_delete_then_create (lib : Lib) (remote : Remote) (p : Provider)
    (oldRec newRec : netlifyDNSRecord) (w : World) (jsonBytes : String)
    (hm : lib.marshalRecord newRec = .ok jsonBytes)
    (hu1 : lib.urlParseError (deleteRequest oldRec.DNSZoneID oldRec.ID jsonBytes).URL = none)
    (hu2 : lib.urlParseError (createRequest oldRec.DNSZoneID jsonBytes).URL = none) :
    ∃ del post : Request,
      del.Method = "DELETE" ∧
      del.URL = baseURL ++ "/dns_zones/" ++ oldRec.DNSZoneID ++ "/dns_records/" ++ oldRec.ID ∧
      post.Method = "POST" ∧
      post.URL = baseURL ++ "/dns_zones/" ++ oldRec.DNSZoneID ++ "/dns_records" ∧
      post.Body = some jsonBytes ∧
      (∀ e, (doAPIRequest remote p lib.unmarshalRecord
            (deleteRequest oldRec.DNSZoneID oldRec.ID jsonBytes)
            false false false true netlifyDNSRecord.zero w).1 = some e →
        updateRecord lib remote p oldRec newRec w = (.error e, w ++ [del])) ∧
      ((doAPIRequest remote p lib.unmarshalRecord
            (deleteRequest oldRec.DNSZoneID oldRec.ID jsonBytes)
            false false false true netlifyDNSRecord.zero w).1 = none →
        (updateRecord lib remote p oldRec newRec w).2 = w ++ [del, post] ∧
        (∀ e, remote (w ++ [del]) post = .error e →
          (updateRecord lib remote p oldRec newRec w).1 = .error e) ∧
        (∀ resp, remote (w ++ [del]) post = .ok resp → 400 ≤ resp.StatusCode →
          ∃ e, (updateRecord lib remote p oldRec newRec w).1 = .error e) ∧
        (∀ resp, remote (w ++ [del]) post = .ok resp → resp.StatusCode < 400 →
          (updateRecord lib remote p oldRec newRec w).1 =
            .ok (lib.unmarshalRecord resp.Body netlifyDNSRecord.zero).1)) := by
  refine ⟨authorized p (deleteRequest oldRec.DNSZoneID oldRec.ID jsonBytes),
    authorized p (createRequest oldRec.DNSZoneID jsonBytes), rfl, rfl, rfl, rfl, rfl, ?_, ?_⟩
  · intro e he
    rw [updateRecord_eq lib remote p oldRec newRec w jsonBytes hm hu1 hu2]
    have hw := doAPIRequest_world remote p lib.unmarshalRecord
      (deleteRequest oldRec.DNSZoneID oldRec.ID jsonBytes) false false false true
      netlifyDNSRecord.zero w
    rcases hd : doAPIRequest remote p lib.unmarshalRecord
      (deleteRequest oldRec.DNSZoneID oldRec.ID jsonBytes) false false false true
      netlifyDNSRecord.zero w with ⟨err, r, w1⟩
    rw [hd] at he hw
    simp only at he hw
    subst he hw
    rfl
  · intro hnone
    rw [updateRecord_eq lib remote p oldRec newRec w jsonBytes hm hu1 hu2]
    have hw := doAPIRequest_world remote p lib.unmarshalRecord
      (deleteRequest oldRec.DNSZoneID oldRec.ID jsonBytes) false false false true
      netlifyDNSRecord.zero w
    rcases hd : doAPIRequest remote p lib.unmarshalRecord
      (deleteRequest oldRec.DNSZoneID oldRec.ID jsonBytes) false false false true
      netlifyDNSRecord.zero w with ⟨err, r, w1⟩
    rw [hd] at hnone hw
    simp only at hnone hw
    subst hnone hw
    simp only
    refine ⟨?_, ?_, ?_, ?_⟩
    · have hw2 := doAPIRequest_world remote p lib.unmarshalRecord
        (createRequest oldRec.DNSZoneID jsonBytes) false false false true
        netlifyDNSRecord.zero
        (w ++ [authorized p (deleteRequest oldRec.DNSZoneID oldRec.ID jsonBytes)])
      rcases hc : doAPIRequest remote p lib.unmarshalRecord
        (createRequest oldRec.DNSZoneID jsonBytes) false false false true
        netlifyDNSRecord.zero
        (w ++ [authorized p (deleteRequest oldRec.DNSZoneID oldRec.ID jsonBytes)])
        with ⟨err2, r2, w2⟩
      rw [hc] at hw2
      simp only at hw2
      subst hw2
      cases err2 <;> simp
    · intro e he
      rw [doAPIRequest_transport_error remote p lib.unmarshalRecord _ false false false true
        netlifyDNSRecord.zero _ e he]
    · intro resp hr hs
      rw [doAPIRequest_status_error remote p lib.unmarshalRecord _ false false false true
        netlifyDNSRecord.zero _ resp hr hs]
      exact ⟨_, rfl⟩
    · intro resp hr hs
      rw [doAPIRequest_solo_shape remote p lib.unmarshalRecord _ netlifyDNSRecord.zero _ resp
        hr hs]

/-- C5, run on a remote that accepts the delete and the create: the record of the POST
response comes back. -/
theorem updateRecord_delete_then_create_witness :
    (updateRecord stubLib updateRemote ⟨"token", none⟩
      ⟨"r1", "z1", "a.example.com", "TXT", "one", 60⟩
      ⟨"", "", "a.example.com", "TXT", "new", 60⟩ []).1 =
      .ok ⟨"r9", "z1", "a.example.com", "TXT", "new", 60⟩ := by
  obtain ⟨del, post, _, _, hpm, _, _, _, hok⟩ :=
    updateRecord_delete_then_create stubLib updateRemote ⟨"token", none⟩
      ⟨"r1", "z1", "a.example.com", "TXT", "one", 60⟩
      ⟨"", "", "a.example.com", "TXT", "new", 60⟩ [] "\x7b\"type\":\"TXT\"\x7d" rfl rfl rfl
  have hpost : updateRemote ([] ++ [del]) post = .ok ⟨201, oneRecordBody, none⟩ := by
    simp [updateRemote, hpm]
  exact (hok rfl).2.2.2 _ hpost (by decide)

/-! ## Finding records -/

theorem foldl_append_if {α : Type} (P : α → Prop) [DecidablePred P] (rs init : List α) :
    rs.foldl (fun acc res => if P res then acc ++ [res] else acc) init =
      init ++ rs.filter (fun r => decide (P r)) := by
  induction rs generalizing init with
  | nil => simp
  | cons r rs ih =>
    simp only [List.foldl_cons, List.filter_cons]
    by_cases h : P r
    · simp [h, ih]
    · simp [h, ih]

theorem getDNSRecords_eq (lib : Lib) (remote : Remote) (p : Provider) (zoneInfo : netlifyZone)
    (rec : Record) (matchContent : Bool) (w : World)
    (hu : lib.urlParseError (recordsRequest zoneInfo.ID).URL = none) :
    getDNSRecords lib remote p zoneInfo rec matchContent w =
      match doAPIRequest remote p lib.unmarshalRecords (recordsRequest zoneInfo.ID)
          false false true false [] w with
      | (some e, _, w1) => (.error e, w1)
      | (none, results, w1) =>
        (.ok (results.filter (fun r => decide
          (r.Hostname = lib.AbsoluteName rec.Name zoneInfo.Name ∧ r.Type_ = rec.Type_))), w1) := by
  simp only [recordsRequest] at hu
  simp only [getDNSRecords, NewRequestWithContext, hu, recordsRequest, foldl_append_if,
    List.nil_append]
  rcases doAPIRequest remote p lib.unmarshalRecords
    ⟨"GET", baseURL ++ "/dns_zones/" ++ zoneInfo.ID ++ "/dns_records", none, []⟩
    false false true false [] w with ⟨err, results, w1⟩
  cases err <;> rfl

/-- C1: when the records request is answered with a status below 400 and a body that
decodes to the list `rs`, `getDNSRecords` returns, with no error, the records of `rs` whose
`Hostname` is `AbsoluteName(rec.Name, zoneInfo.Name)` and whose `Type` is `rec.Type`, in the
order of `rs`; it is the empty list when no record of `rs` matches. -/
theorem getDNSRecords_returns_matching (lib : Lib) (remote : Remote) (p : Provider)
    (zoneInfo : netlifyZone) (rec : Record) (matchContent : Bool) (w : World)
    (resp : Response) (rs : List netlifyDNSRecord)
    (hu : lib.urlParseError (recordsRequest zoneInfo.ID).URL = none)
    (hresp : remote w (authorized p (recordsRequest zoneInfo.ID)) = .ok resp)
    (hstatus : resp.StatusCode < 400)
    (hdec : lib.unmarshalRecords resp.Body [] = (rs, none)) :
    (getDNSRecords lib remote p zoneInfo rec matchContent w).1 =
      .ok (rs.filter (fun r => decide
        (r.Hostname = lib.AbsoluteName rec.Name zoneInfo.Name ∧ r.Type_ = rec.Type_))) ∧
    ((∀ r ∈ rs, ¬ (r.Hostname = lib.AbsoluteName rec.Name zoneInfo.Name ∧ r.Type_ = rec.Type_)) →
      (getDNSRecords lib remote p zoneInfo rec matchContent w).1 = .ok []) := by
  have key : (getDNSRecords lib remote p zoneInfo rec matchContent w).1 =
      .ok (rs.filter (fun r => decide
        (r.Hostname = lib.AbsoluteName rec.Name zoneInfo.Name ∧ r.Type_ = rec.Type_))) := by
    rw [getDNSRecords_eq lib remote p zoneInfo rec matchContent w hu,
      doAPIRequest_list_shape remote p lib.unmarshalRecords _ false [] w resp hresp hstatus,
      hdec]
  refine ⟨key, ?_⟩
  intro hnone
  rw [key]
  congr 1
  rw [List.filter_eq_nil_iff]
  intro r hr
  simpa using hnone r hr

/-- C1, run on a response of three records of which the first and the third match. -/
theorem getDNSRecords_returns_matching_witness :
    (getDNSRecords stubLib
      (constRemote ⟨200, threeRecordsBody, none⟩)
      ⟨"token", none⟩ ⟨"z1", "example.com"⟩ ⟨"TXT", "a", "one", 0⟩ true []).1 =
      .ok [⟨"r1", "z1", "a.example.com", "TXT", "one", 60⟩,
        ⟨"r3", "z1", "a.example.com", "TXT", "three", 60⟩] :=
  (getDNSRecords_returns_matching stubLib
    (constRemote ⟨200, threeRecordsBody, none⟩)
    ⟨"token", none⟩ ⟨"z1", "example.com"⟩ ⟨"TXT", "a", "one", 0⟩ true []
    ⟨200, threeRecordsBody, none⟩
    [⟨"r1", "z1", "a.example.com", "TXT", "one", 60⟩,
      ⟨"r2", "z1", "b.example.com", "TXT", "two", 60⟩,
      ⟨"r3", "z1", "a.example.com", "TXT", "three", 60⟩]
    rfl rfl (by decide) (by simp [stubLib])).1

/-- C8: the request that `getDNSRecords` sends is the GET on the records of the zone with
no query string, the same for every candidate record and either value of `matchContent`:
the values built in `qs` do not reach the request. -/
theorem getDNSRecords_request_has_no_query (lib : Lib) (remote : Remote) (p : Provider)
    (zoneInfo : netlifyZone) (rec : Record) (matchContent : Bool) (w : World)
    (hu : lib.urlParseError (recordsRequest zoneInfo.ID).URL = none) :
    (getDNSRecords lib remote p zoneInfo rec matchContent w).2 =
      w ++ [⟨"GET", baseURL ++ "/dns_zones/" ++ zoneInfo.ID ++ "/dns_records", none,
        [("Authorization", "Bearer " ++ p.PersonalAccessToken)]⟩] := by
  rw [getDNSRecords_eq lib remote p zoneInfo rec matchContent w hu]
  have hw := doAPIRequest_world remote p lib.unmarshalRecords (recordsRequest zoneInfo.ID)
    false false true false [] w
  rcases hd : doAPIRequest remote p lib.unmarshalRecords (recordsRequest zoneInfo.ID)
    false false true false [] w with ⟨err, results, w1⟩
  rw [hd] at hw
  simp only at hw
  subst hw
  cases err <;> rfl

/-- C8, run on a TXT candidate with `matchContent` set: three query values are built,
and the one request sent has the bare records URL. -/
theorem getDNSRecords_request_has_no_query_witness :
    getDNSRecordsQuery stubLib ⟨"z1", "example.com"⟩ ⟨"TXT", "a", "one", 0⟩ true =
      [("type", "TXT"), ("name", "a.example.com"), ("content", "one")] ∧
    (getDNSRecords stubLib (constRemote ⟨200, "[]", none⟩) ⟨"token", none⟩
      ⟨"z1", "example.com"⟩ ⟨"TXT", "a", "one", 0⟩ true []).2 =
      [⟨"GET", "https://api.netlify.com/api/v1/dns_zones/z1/dns_records", none,
        [("Authorization", "Bearer token")]⟩] :=
  ⟨by decide, getDNSRecords_request_has_no_query stubLib (constRemote ⟨200, "[]", none⟩)
    ⟨"token", none⟩ ⟨"z1", "example.com"⟩ ⟨"TXT", "a", "one", 0⟩ true [] rfl⟩

/-! ## Zone resolution -/

theorem dropWhile_replicate_append (q : Char → Bool) (c : Char) (hc : q c = true) (k : Nat)
    (r : List Char) : (List.replicate k c ++ r).dropWhile q = r.dropWhile q := by
  induction k with
  | zero => rfl
  | succ k ih => simp [List.replicate_succ, List.dropWhile_cons, hc, ih]

theorem TrimRight_append_dots (s : String) (k : Nat) :
    TrimRight (s ++ dots k) "." = TrimRight s "." := by
  have hc : (fun c : Char => ".".data.contains c) '.' = true := by decide
  simp only [TrimRight, dots, String.data_append, List.rdropWhile, List.reverse_append,
    List.reverse_replicate]
  rw [dropWhile_replicate_append _ '.' hc]

theorem TrimRight_append_dot (s : String) : TrimRight (s ++ ".") "." = TrimRight s "." :=
  TrimRight_append_dots s 1

theorem TrimRight_of_no_trailing_dot (s : String) (hs : s.data.getLast? ≠ some '.') :
    TrimRight s "." = s := by
  cases s with
  | mk data =>
    simp only [TrimRight]
    congr 1
    rw [List.rdropWhile_eq_self_iff]
    intro hl hp
    apply hs
    rw [List.getLast?_eq_getLast _ hl]
    have : data.getLast hl = '.' := by simpa using hp
    rw [this]

theorem Encode_name (lib : Lib) (name : String) :
    Encode lib (setEntry [] "name" name) =
      lib.QueryEscape "name" ++ "=" ++ lib.QueryEscape name := by
  simp [Encode, setEntry, String.intercalate, String.intercalate.go]

theorem getZoneInfo_hit (lib : Lib) (remote : Remote) (p : Provider) (zoneName : String)
    (w : World) (z : netlifyZone) (h : p.lookup (TrimRight zoneName ".") = some z) :
    getZoneInfo lib remote p zoneName w = (.ok z, p, w) := by
  obtain ⟨token, zones⟩ := p
  cases zones with
  | none => simp [Provider.lookup] at h
  | some m =>
    simp only [Provider.lookup] at h
    simp only [getZoneInfo, h]

theorem getZoneInfo_keeps (lib : Lib) (remote : Remote) (p : Provider) (zoneName : String)
    (w : World) (k : String) (z : netlifyZone) (h : p.lookup k = some z) :
    (getZoneInfo lib remote p zoneName w).2.1.lookup k = some z := by
  obtain ⟨token, zones⟩ := p
  cases zones with
  | none => simp [Provider.lookup] at h
  | some m =>
    simp only [Provider.lookup] at h
    simp only [getZoneInfo]
    split
    · simpa [Provider.lookup] using h
    · rename_i hmiss
      have hne : k ≠ TrimRight zoneName "." := by
        intro hk
        rw [hk, hmiss] at h
        cases h
      repeat' split
      all_goals simp [Provider.lookup, mapStore, h, hne]

theorem getZoneInfo_ok_stores (lib : Lib) (remote : Remote) (p : Provider) (zoneName : String)
    (w : World) (z : netlifyZone) (h : (getZoneInfo lib remote p zoneName w).1 = .ok z) :
    (getZoneInfo lib remote p zoneName w).2.1.lookup (TrimRight zoneName ".") = some z := by
  revert h
  simp only [getZoneInfo]
  repeat' split
  all_goals intro h
  all_goals simp_all [Provider.lookup, mapStore]

theorem getZoneInfoCalls_keeps (lib : Lib) (calls : List (Remote × String)) (p : Provider)
    (w : World) (k : String) (z : netlifyZone) (h : p.lookup k = some z) :
    (getZoneInfoCalls lib calls p w).1.lookup k = some z := by
  induction calls generalizing p w with
  | nil => exact h
  | cons c rest ih =>
    obtain ⟨remote, zoneName⟩ := c
    exact ih _ _ (getZoneInfo_keeps lib remote p zoneName w k z h)

theorem getZoneInfo_miss_world (lib : Lib) (remote : Remote) (p : Provider)
    (zoneName : String) (w : World)
    (hmiss : p.lookup (TrimRight zoneName ".") = none)
    (hu : lib.urlParseError (zonesRequest lib (TrimRight zoneName ".")).URL = none) :
    (getZoneInfo lib remote p zoneName w).2.2 =
      w ++ [authorized p (zonesRequest lib (TrimRight zoneName "."))] := by
  simp only [zonesRequest] at hu
  have hm : (match p.zones with
      | none => fun _ => none
      | some m => m) (TrimRight zoneName ".") = none := by
    obtain ⟨token, zones⟩ := p
    cases zones <;> simp [Provider.lookup] at hmiss ⊢
    exact hmiss
  simp only [getZoneInfo, hm, Encode_name, NewRequestWithContext, hu]
  have hw := doAPIRequest_world remote
    { p with zones := some (match p.zones with
      | none => fun _ => none
      | some m => m) } lib.unmarshalZones
    ⟨"GET", baseURL ++ "/dns_zones?" ++
      (lib.QueryEscape "name" ++ "=" ++ lib.QueryEscape (TrimRight zoneName ".")), none, []⟩
    true false true false [] w
  rcases hd : doAPIRequest remote
    { p with zones := some (match p.zones with
      | none => fun _ => none
      | some m => m) } lib.unmarshalZones
    ⟨"GET", baseURL ++ "/dns_zones?" ++
      (lib.QueryEscape "name" ++ "=" ++ lib.QueryEscape (TrimRight zoneName ".")), none, []⟩
    true false true false [] w with ⟨err, zs, w1⟩
  rw [hd] at hw
  simp only at hw
  subst hw
  cases err with
  | some e => rfl
  | none =>
    simp only
    split <;> rfl

theorem getZoneInfo_miss_decoded (lib : Lib) (remote : Remote) (p : Provider)
    (zoneName : String) (w : World) (resp : Response) (zs : List netlifyZone)
    (hmiss : p.lookup (TrimRight zoneName ".") = none)
    (hu : lib.urlParseError (zonesRequest lib (TrimRight zoneName ".")).URL = none)
    (hresp : remote w (authorized p (zonesRequest lib (TrimRight zoneName "."))) = .ok resp)
    (hstatus : resp.StatusCode < 400)
    (hdec : lib.unmarshalZones resp.Body [] = (zs, none)) :
    (∀ z, zs = [z] → (getZoneInfo lib remote p zoneName w).1 = .ok z) ∧
    (zs.length ≠ 1 → (getZoneInfo lib remote p zoneName w).1 =
      .error ("expected 1 zone, got " ++ toString zs.length ++ " for " ++
          TrimRight zoneName ".")) := by
  simp only [zonesRequest] at hu
  have hm : (match p.zones with
      | none => fun _ => none
      | some m => m) (TrimRight zoneName ".") = none := by
    obtain ⟨token, zones⟩ := p
    cases zones <;> simp [Provider.lookup] at hmiss ⊢
    exact hmiss
  have hresp2 : remote w (authorized { p with zones := some (match p.zones with
      | none => fun _ => none
      | some m => m) } (zonesRequest lib (TrimRight zoneName "."))) = .ok resp := hresp
  have hcall := doAPIRequest_list_shape remote _ lib.unmarshalZones _ true [] w resp hresp2
    hstatus
  rw [hdec] at hcall
  simp only [zonesRequest] at hcall
  simp only [getZoneInfo, hm, Encode_name, NewRequestWithContext, hu, hcall]
  constructor
  · intro z hz
    subst hz
    simp
  · intro hlen
    simp [hlen]

/-- C2: once `getZoneInfo` has returned the zone `z` for a name, then after any run of
further `getZoneInfo` calls on the provider, for any names and against any remotes, the
cache still maps the normalised name to `z`, and a call for the same name, whatever the
remote would answer, returns `z` with no error, sends no request and leaves the provider
as it was. -/
theorem getZoneInfo_cached_zone_is_permanent (lib : Lib) (remote : Remote) (p : Provider)
    (zoneName : String) (w : World) (z : netlifyZone) (calls : List (Remote × String))
    (later : Remote) (h : (getZoneInfo lib remote p zoneName w).1 = .ok z) :
    (getZoneInfoThen lib remote p zoneName w calls).1.lookup (TrimRight zoneName ".") = some z ∧
    getZoneInfo lib later (getZoneInfoThen lib remote p zoneName w calls).1 zoneName
        (getZoneInfoThen lib remote p zoneName w calls).2 =
      (.ok z, (getZoneInfoThen lib remote p zoneName w calls).1,
        (getZoneInfoThen lib remote p zoneName w calls).2) := by
  have hk : (getZoneInfoThen lib remote p zoneName w calls).1.lookup (TrimRight zoneName ".") =
      some z :=
    getZoneInfoCalls_keeps lib calls _ _ _ z (getZoneInfo_ok_stores lib remote p zoneName w z h)
  exact ⟨hk, getZoneInfo_hit lib later _ zoneName _ z hk⟩

/-- C2, run on a provider that resolves `example.com`, then fails to resolve `other.org`,
then is asked for `example.com` again while the remote answers 500 to everything. -/
theorem getZoneInfo_cached_zone_is_permanent_witness :
    (getZoneInfo stubLib (constRemote ⟨500, "down", none⟩)
      (getZoneInfoThen stubLib (constRemote ⟨200, oneZoneBody, none⟩) ⟨"token", none⟩
        "example.com" [] [(constRemote ⟨200, "[]", none⟩, "other.org")]).1 "example.com"
      (getZoneInfoThen stubLib (constRemote ⟨200, oneZoneBody, none⟩) ⟨"token", none⟩
        "example.com" [] [(constRemote ⟨200, "[]", none⟩, "other.org")]).2).1 =
      .ok ⟨"z1", "example.com"⟩ :=
  congrArg Prod.fst
    (getZoneInfo_cached_zone_is_permanent stubLib (constRemote ⟨200, oneZoneBody, none⟩)
      ⟨"token", none⟩ "example.com" [] ⟨"z1", "example.com"⟩
      [(constRemote ⟨200, "[]", none⟩, "other.org")] (constRemote ⟨500, "down", none⟩) rfl).2

/-- C3: on a cache miss whose lookup request is answered with a status below 400 and a
body that decodes to the list `zs`, `getZoneInfo` succeeds exactly when `zs` has one
element, and then returns this element; with no element or with two or more it returns
an error. -/
theorem getZoneInfo_requires_exactly_one_zone (lib : Lib) (remote : Remote) (p : Provider)
    (zoneName : String) (w : World) (resp : Response) (zs : List netlifyZone)
    (hmiss : p.lookup (TrimRight zoneName ".") = none)
    (hu : lib.urlParseError (zonesRequest lib (TrimRight zoneName ".")).URL = none)
    (hresp : remote w (authorized p (zonesRequest lib (TrimRight zoneName "."))) = .ok resp)
    (hstatus : resp.StatusCode < 400)
    (hdec : lib.unmarshalZones resp.Body [] = (zs, none)) :
    ((∃ z, (getZoneInfo lib remote p zoneName w).1 = .ok z) ↔ zs.length = 1) ∧
    (∀ z, zs = [z] → (getZoneInfo lib remote p zoneName w).1 = .ok z) ∧
    (zs.length ≠ 1 → ∃ e, (getZoneInfo lib remote p zoneName w).1 = .error e) := by
  obtain ⟨hone, hnot⟩ := getZoneInfo_miss_decoded lib remote p zoneName w resp zs hmiss hu hresp
    hstatus hdec
  refine ⟨⟨?_, ?_⟩, hone, fun hlen => ⟨_, hnot hlen⟩⟩
  · rintro ⟨z, hz⟩
    by_contra hlen
    rw [hnot hlen] at hz
    cases hz
  · intro hlen
    match zs, hlen with
    | [z], _ => exact ⟨z, hone z rfl⟩

/-- C3, run on a lookup answered with the one zone `example.com`. -/
theorem getZoneInfo_requires_exactly_one_zone_witness :
    (getZoneInfo stubLib (constRemote ⟨200, oneZoneBody, none⟩) ⟨"token", none⟩
      "example.com." []).1 = .ok ⟨"z1", "example.com"⟩ :=
  (getZoneInfo_requires_exactly_one_zone stubLib (constRemote ⟨200, oneZoneBody, none⟩)
    ⟨"token", none⟩ "example.com." [] ⟨200, oneZoneBody, none⟩ [⟨"z1", "example.com"⟩]
    rfl rfl rfl (by decide) rfl).2.1 _ rfl

/-- C9: a name and the same name followed by a dot share one cache entry: both are
normalised to the same cache key, and once `getZoneInfo` has returned `z` for either of
the two, the cache maps that key to `z` right after the call and after any run of further
calls, and a call for the other then returns `z` with no error, sends no request and
leaves the provider as it was. -/
theorem getZoneInfo_trailing_dot_same_entry (lib : Lib) (remote : Remote) (p : Provider)
    (n : String) (w : World) (z : netlifyZone) (calls : List (Remote × String))
    (later : Remote) :
    TrimRight (n ++ ".") "." = TrimRight n "." ∧
    ((getZoneInfo lib remote p n w).1 = .ok z →
      (getZoneInfo lib remote p n w).2.1.lookup (TrimRight n ".") = some z ∧
      (getZoneInfoThen lib remote p n w calls).1.lookup (TrimRight n ".") = some z ∧
      getZoneInfo lib later (getZoneInfoThen lib remote p n w calls).1 (n ++ ".")
          (getZoneInfoThen lib remote p n w calls).2 =
        (.ok z, (getZoneInfoThen lib remote p n w calls).1,
          (getZoneInfoThen lib remote p n w calls).2)) ∧
    ((getZoneInfo lib remote p (n ++ ".") w).1 = .ok z →
      (getZoneInfo lib remote p (n ++ ".") w).2.1.lookup (TrimRight n ".") = some z ∧
      (getZoneInfoThen lib remote p (n ++ ".") w calls).1.lookup (TrimRight n ".") = some z ∧
      getZoneInfo lib later (getZoneInfoThen lib remote p (n ++ ".") w calls).1 n
          (getZoneInfoThen lib remote p (n ++ ".") w calls).2 =
        (.ok z, (getZoneInfoThen lib remote p (n ++ ".") w calls).1,
          (getZoneInfoThen lib remote p (n ++ ".") w calls).2)) := by
  refine ⟨TrimRight_append_dot n, ?_, ?_⟩
  · intro h
    have hs := getZoneInfo_ok_stores lib remote p n w z h
    have hk : (getZoneInfoThen lib remote p n w calls).1.lookup (TrimRight n ".") = some z :=
      getZoneInfoCalls_keeps lib calls _ _ _ z hs
    refine ⟨hs, hk, ?_⟩
    apply getZoneInfo_hit
    rw [TrimRight_append_dot]
    exact hk
  · intro h
    have hs := getZoneInfo_ok_stores lib remote p (n ++ ".") w z h
    rw [TrimRight_append_dot] at hs
    have hk : (getZoneInfoThen lib remote p (n ++ ".") w calls).1.lookup (TrimRight n ".") =
        some z := getZoneInfoCalls_keeps lib calls _ _ _ z hs
    exact ⟨hs, hk, getZoneInfo_hit lib later _ n _ z hk⟩

/-- C9, run on `example.com.` resolved first and `example.com` asked next, while the
remote answers 500: the entry sits under `example.com`, the second call returns the zone,
and the one request of the first call stays the only one sent. -/
theorem getZoneInfo_trailing_dot_same_entry_witness :
    (getZoneInfoThen stubLib (constRemote ⟨200, oneZoneBody, none⟩) ⟨"token", none⟩
      ("example.com" ++ ".") [] []).1.lookup (TrimRight "example.com" ".") =
      some ⟨"z1", "example.com"⟩ ∧
    getZoneInfo stubLib (constRemote ⟨500, "down", none⟩)
      (getZoneInfoThen stubLib (constRemote ⟨200, oneZoneBody, none⟩) ⟨"token", none⟩
        ("example.com" ++ ".") [] []).1 "example.com"
      (getZoneInfoThen stubLib (constRemote ⟨200, oneZoneBody, none⟩) ⟨"token", none⟩
        ("example.com" ++ ".") [] []).2 =
      (.ok ⟨"z1", "example.com"⟩,
        (getZoneInfoThen stubLib (constRemote ⟨200, oneZoneBody, none⟩) ⟨"token", none⟩
          ("example.com" ++ ".") [] []).1,
        [⟨"GET", "https://api.netlify.com/api/v1/dns_zones?name=example.com", none,
          [("Authorization", "Bearer token")]⟩]) :=
  ((getZoneInfo_trailing_dot_same_entry stubLib (constRemote ⟨200, oneZoneBody, none⟩)
    ⟨"token", none⟩ "example.com" [] ⟨"z1", "example.com"⟩ []
    (constRemote ⟨500, "down", none⟩)).2.2 rfl).2

theorem getZoneInfo_congr (lib : Lib) (remote : Remote) (p : Provider) (a b : String)
    (w : World) (h : TrimRight a "." = TrimRight b ".") :
    getZoneInfo lib remote p a w = getZoneInfo lib remote p b w := by
  simp only [getZoneInfo, h]

/-- C10, as stated, fails: the input `example.com..` is `example.com.` followed by a dot,
and it is looked up and cached as `example.com`, not as `example.com.`. -/
theorem getZoneInfo_double_dot_counterexample :
    TrimRight ("example.com." ++ ".") "." ≠ "example.com." ∧
    (getZoneInfo stubLib (constRemote ⟨200, oneZoneBody, none⟩) ⟨"token", none⟩
      ("example.com." ++ ".") []).2.2 =
      [⟨"GET", "https://api.netlify.com/api/v1/dns_zones?name=example.com", none,
        [("Authorization", "Bearer token")]⟩] ∧
    (getZoneInfo stubLib (constRemote ⟨200, oneZoneBody, none⟩) ⟨"token", none⟩
      ("example.com." ++ ".") []).2.1.lookup "example.com" = some ⟨"z1", "example.com"⟩ ∧
    (getZoneInfo stubLib (constRemote ⟨200, oneZoneBody, none⟩) ⟨"token", none⟩
      ("example.com." ++ ".") []).2.1.lookup "example.com." = none := by
  refine ⟨by decide, ?_, ?_, ?_⟩
  · decide
  · decide
  · decide

/-- C10, amended: `getZoneInfo` strips every trailing dot.  For a string `s` that does not
end in a dot, the input `s` followed by any number of dots behaves as the input `s`, and
for the input `s` the name `s` itself is the cache key that is read, the name filter of the
lookup request on a miss, and the cache key that is written on success. -/
theorem getZoneInfo_normalises_name (lib : Lib) (remote : Remote) (p : Provider)
    (s : String) (w : World) (k : Nat) (hs : s.data.getLast? ≠ some '.') :
    TrimRight (s ++ dots k) "." = s ∧
    getZoneInfo lib remote p (s ++ dots k) w = getZoneInfo lib remote p s w ∧
    (∀ z, p.lookup s = some z → getZoneInfo lib remote p s w = (.ok z, p, w)) ∧
    (p.lookup s = none → lib.urlParseError (zonesRequest lib s).URL = none →
      (getZoneInfo lib remote p s w).2.2 =
        w ++ [⟨"GET",
          baseURL ++ "/dns_zones?" ++ (lib.QueryEscape "name" ++ "=" ++ lib.QueryEscape s),
          none, [("Authorization", "Bearer " ++ p.PersonalAccessToken)]⟩]) ∧
    (∀ z, (getZoneInfo lib remote p s w).1 = .ok z →
      (getZoneInfo lib remote p s w).2.1.lookup s = some z) := by
  have ht : TrimRight s "." = s := TrimRight_of_no_trailing_dot s hs
  have htk : TrimRight (s ++ dots k) "." = s := by rw [TrimRight_append_dots, ht]
  refine ⟨htk, ?_, ?_, ?_, ?_⟩
  · exact getZoneInfo_congr lib remote p _ _ w (by rw [htk, ht])
  · intro z hz
    exact getZoneInfo_hit lib remote p s w z (by rw [ht]; exact hz)
  · intro hmiss hu
    have h := getZoneInfo_miss_world lib remote p s w (by rw [ht]; exact hmiss)
      (by rw [ht]; exact hu)
    rw [ht] at h
    exact h
  · intro z hz
    have h := getZoneInfo_ok_stores lib remote p s w z hz
    rw [ht] at h
    exact h

/-- C10 amended, run on `example.com` followed by two dots. -/
theorem getZoneInfo_normalises_name_witness :
    TrimRight ("example.com" ++ dots 2) "." = "example.com" ∧
    getZoneInfo stubLib (constRemote ⟨200, oneZoneBody, none⟩) ⟨"token", none⟩
        ("example.com" ++ dots 2) [] =
      getZoneInfo stubLib (constRemote ⟨200, oneZoneBody, none⟩) ⟨"token", none⟩
        "example.com" [] :=
  ⟨(getZoneInfo_normalises_name stubLib (constRemote ⟨200, oneZoneBody, none⟩) ⟨"token", none⟩
      "example.com" [] 2 (by decide)).1,
    (getZoneInfo_normalises_name stubLib (constRemote ⟨200, oneZoneBody, none⟩) ⟨"token", none⟩
      "example.com" [] 2 (by decide)).2.1⟩

end Netlify
